import Mathlib

/-!
# psyduck-etl/mysql: the `mysql-table` consumer and the `mysql-filter` transformer

A shallow embedding of `export.go`.

* Go values of type `interface{}` coming out of `encoding/json` are the inductive `Value`.
* A `[]byte` is a `ByteSlice`: `none` is the `nil` slice, `some bs` a slice holding `bs`.
* A Go `error` value is a `GoError`; a `nil` error is `none : Option GoError`.
* The libraries the plugin calls (`encoding/json`, `database/sql`, the host's configuration
  parser) are parameters: the backend is a state-passing `DB σ` over any state type `σ`.
* Channel operations and calls on the backend are recorded as events, in program order. The
  host owns the other end of the channel `errs`: a send on it goes through only if the host
  takes the value, and blocks the closure for good if not (`ErrChan`).
-/

set_option autoImplicit false

namespace Mysql

/-! ## Data model -/

/-- A dynamically typed value as `encoding/json` stores it in an `interface{}`. A number is a
`float64`, kept as its bit pattern: the plugin never computes on a value. -/
inductive Value where
  | null
  | bool (b : Bool)
  | number (bits : Nat)
  | str (s : String)
  | array (items : List Value)
  | object (members : List (String × Value))

/-- The value `map[string]interface{}`: a finite map, keys looked up from the front. -/
abbrev KVs := List (String × Value)

/-- A `[]byte`; `none` is the `nil` slice. -/
abbrev ByteSlice := Option (List UInt8)

/-- A Go `error` value that is not `nil`. -/
inductive GoError where
  /-- built by `fmt.Errorf`, with the formatted message -/
  | errorf (msg : String)
  /-- handed back by a library (`encoding/json`, `database/sql`, the host's parser) -/
  | lib (pkg : String) (msg : String)
  deriving DecidableEq, Repr

/-- The function type `func(in []byte) (map[string]interface{}, error)`. -/
abbrev Decoder := ByteSlice → KVs × Option GoError

/-! ## `decodeFor`, `repeat`, `pickOrdered` -/

/-- The function `decodeFor` (export.go 16-27). `jsonUnmarshal in` is what `json.Unmarshal(in, &v)` leaves
in the fresh map `v`, with the error it returns. -/
def decodeFor (jsonUnmarshal : ByteSlice → KVs × Option GoError) (kind : String) :
    Except GoError Decoder :=
  if kind = "JSON" then
    .ok (fun input => jsonUnmarshal input)
  else
    .error (.errorf ("no way to decode " ++ kind))

/-- The function `repeat` (export.go 29-36). `make([]T, count)` panics on a negative `count` (`none`);
otherwise the slice starts as `count` zero values and the loop overwrites index `i` for
`i = 0, .., count - 1`. -/
def «repeat» {T : Type} [Inhabited T] (r : T) (count : Int) : Option (List T) :=
  if count < 0 then none
  else
    let n := count.toNat
    some ((List.range n).foldl (fun ts i => ts.set i r) (List.replicate n default))

/-- The map index expression `v, ok := kvs[f]`. -/
def mapLookup (kvs : KVs) (f : String) : Option Value :=
  kvs.lookup f

/-- The function `pickOrdered` (export.go 38-49). The slice starts as `len(fields)` nil values and the loop
stores at index `i` either `nil` or the value found under `fields[i]`. -/
def pickOrdered (fields : List String) (kvs : KVs) : List Value :=
  fields.enum.foldl
    (fun picked (p : Nat × String) =>
      match mapLookup kvs p.2 with
      | none => picked.set p.1 Value.null
      | some v => picked.set p.1 v)
    (List.replicate fields.length Value.null)

/-! ## Configuration and the backend -/

/-- The struct `Config` (export.go 51-58). -/
structure Config where
  Connection : String
  Table : String
  Fields : List String
  Encoding : String
  InsertChunkSize : Int

/-- The value `new(Config)` points to: every field zero. -/
def newConfig : Config := ⟨"", "", [], "", 0⟩

/-- The host's `sdk.Parser`, called as `parse(config)`: it fills the struct it is handed and
returns an error or `nil`. -/
abbrev Parser := Config → Config × Option GoError

/-- The handle `*sql.Rows`, as far as the transformer looks at it: `firstScan` is what
`rows.Next(); rows.Scan(&count)` stores into its integer destination, `some c` when a first
row is there and its single column converts to `c`, `none` when there is no row or the scan
fails (the destination then keeps the value it had). -/
structure Rows where
  firstScan : Option Int

/-- The two statements `rows.Next(); rows.Scan(&count)` (export.go 181, 184), neither result
checked, acting on the variable `count`. -/
def Rows.nextScan (rows : Rows) (count : Int) : Int :=
  match rows.firstScan with
  | some c => c
  | none => count

/-- The handle `*sql.DB` over a backend whose state has type `σ`. -/
structure DB (σ : Type) where
  /-- the call `db.Exec(query, args...)`: the new backend state and the error (the result is dropped) -/
  exec : σ → String → List Value → σ × Option GoError
  /-- the call `db.Query(query, arg)`: the new backend state, the rows handle and the error -/
  query : σ → String → Value → σ × (Rows × Option GoError)

/-- What the plugin calls outside the repository. -/
structure Env (σ : Type) where
  /-- the call `json.Unmarshal(in, &v)` on a fresh map `v`: the map afterwards and the error -/
  jsonUnmarshal : ByteSlice → KVs × Option GoError
  /-- the call `sql.Open("mysql", connection)`: the handle and the error -/
  sqlOpen : String → DB σ × Option GoError

/-! ## The consumer (`mysql-table`) -/

/-- The host's end of the channel `errs`, as far as the closure depends on it: `taken` says
whether a value sent on the channel is taken (a receiver is there or comes, or the buffer has
room). When it is not, the send `errs <- err` never completes. -/
structure ErrChan where
  taken : Bool

/-- What the consumer closure does that its surroundings can see, in program order. -/
inductive Event where
  /-- the call `decode(data)` -/
  | decode (data : ByteSlice)
  /-- the call `db.Exec(query, args...)` -/
  | exec (query : String) (args : List Value)
  /-- the send `errs <- err`, completed: the host has the error -/
  | sendErr (err : GoError)
  /-- the send `errs <- err` that nobody takes: the closure stays blocked in it -/
  | sendBlocked (err : GoError)
  /-- the call `close(errs)` -/
  | closeErrs
  /-- the call `close(done)` -/
  | closeDone

/-- The statement `errs <- err` (export.go 131, 136): the event it leaves, and whether control
goes on past it to the `return` that follows (`true`) or stays blocked in the send
(`false`). -/
def sendOn (errs : ErrChan) (err : GoError) : List Event × Bool :=
  if errs.taken then ([.sendErr err], true) else ([.sendBlocked err], false)

/-- The loop `for data := range recv` (export.go 128-139) over the records the channel
delivers before it is closed. At the first error it sends the error and returns. The result
is the backend state, the events, and whether the body came to its end or to a `return`
(`true`) or is blocked in a send (`false`). -/
def consumerLoop {σ : Type} (decode : Decoder) (db : DB σ) (query : String)
    (fields : List String) (errs : ErrChan) : σ → List ByteSlice → σ × List Event × Bool
  | s, [] => (s, [], true)
  | s, data :: rest =>
    match decode data with
    | (_, some err) => (s, .decode data :: (sendOn errs err).1, (sendOn errs err).2)
    | (dataDecoded, none) =>
      match db.exec s query (pickOrdered fields dataDecoded) with
      | (s1, some err) =>
        (s1, .decode data :: .exec query (pickOrdered fields dataDecoded) :: (sendOn errs err).1,
          (sendOn errs err).2)
      | (s1, none) =>
        ((consumerLoop decode db query fields errs s1 rest).1,
          .decode data :: .exec query (pickOrdered fields dataDecoded) ::
            (consumerLoop decode db query fields errs s1 rest).2.1,
          (consumerLoop decode db query fields errs s1 rest).2.2)

/-- The consumer closure (export.go 124-140). The two deferred calls run when the body
returns, last deferred first: `close(errs)`, then `close(done)`; a body that is blocked in a
send never returns, and they do not run. -/
def consumer {σ : Type} (decode : Decoder) (db : DB σ) (query : String)
    (fields : List String) (errs : ErrChan) (s : σ) (recv : List ByteSlice) :
    σ × List Event :=
  ((consumerLoop decode db query fields errs s recv).1,
    if (consumerLoop decode db query fields errs s recv).2.2 then
      (consumerLoop decode db query fields errs s recv).2.1 ++ [.closeErrs, .closeDone]
    else
      (consumerLoop decode db query fields errs s recv).2.1)

/-! ### Reading a run of the consumer -/

/-- The `db.Exec` calls of a run, in order: statement text and bound values. -/
def writes : List Event → List (String × List Value)
  | [] => []
  | .exec q args :: es => (q, args) :: writes es
  | _ :: es => writes es

/-- The errors sent on `errs` and taken by the host, in order. -/
def errorsSent : List Event → List GoError
  | [] => []
  | .sendErr e :: es => e :: errorsSent es
  | _ :: es => errorsSent es

/-- The records handed to `decode`, in order. -/
def decoded : List Event → List ByteSlice
  | [] => []
  | .decode d :: es => d :: decoded es
  | _ :: es => decoded es

/-- How many times `done` is closed. -/
def doneSignals : List Event → Nat
  | [] => 0
  | .closeDone :: es => doneSignals es + 1
  | _ :: es => doneSignals es

/-- How many sends on `errs` are left blocked. -/
def blockedSends : List Event → Nat
  | [] => 0
  | .sendBlocked _ :: es => blockedSends es + 1
  | _ :: es => blockedSends es

/-- The backend state after `db.Exec(query, args)` has run for each `args` of `argss` in order
and every call returned a nil error; `none` once a call returns an error. -/
def execAll {σ : Type} (db : DB σ) (query : String) : σ → List (List Value) → Option σ
  | s, [] => some s
  | s, args :: rest =>
    match db.exec s query args with
    | (s1, none) => execAll db query s1 rest
    | (_, some _) => none

/-- The events of one record that is decoded and written without error. -/
def okSteps (decode : Decoder) (query : String) (fields : List String) (data : ByteSlice) :
    List Event :=
  [.decode data, .exec query (pickOrdered fields (decode data).1)]

/-! ## The transformer (`mysql-filter`) -/

/-- What one call of the transformer closure does, in program order. -/
inductive GateEvent where
  /-- the call `decode(in)` -/
  | decode (input : ByteSlice)
  /-- the call `db.Query(query, arg)` -/
  | query (text : String) (arg : Value)
  /-- the call `rows.Next()` -/
  | next
  /-- the call `rows.Scan(&count)` -/
  | scan
  /-- the statement `switch count`, with the value of `count` it branches on -/
  | switchOn (count : Int)
  /-- the deferred `rows.Close()` -/
  | close

/-- One call of the transformer: the backend state afterwards, what the call did, and the two
values it returns. -/
structure GateRun (σ : Type) where
  db : σ
  events : List GateEvent
  out : ByteSlice
  err : Option GoError

/-- The map index expression `dataDecoded[f]` used as a value: the zero value `nil` for a
key that is absent. -/
def mapIndex (kvs : KVs) (f : String) : Value :=
  match mapLookup kvs f with
  | some v => v
  | none => Value.null

/-- The text of `fmt.Errorf("count(*) scanned as %d, or did not scan if -1", count)`. -/
def countMessage (count : Int) : String :=
  "count(*) scanned as " ++ toString count ++ ", or did not scan if -1"

/-- The transformer closure (export.go 169-193); `field` is `config.Fields[0]`. -/
def transformer {σ : Type} (decode : Decoder) (db : DB σ) (query : String) (field : String)
    (s : σ) (input : ByteSlice) : GateRun σ :=
  match decode input with
  | (_, some err) => ⟨s, [.decode input], none, some err⟩
  | (dataDecoded, none) =>
    match db.query s query (mapIndex dataDecoded field) with
    | (s1, (_, some err)) =>
      ⟨s1, [.decode input, .query query (mapIndex dataDecoded field)], none, some err⟩
    | (s1, (rows, none)) =>
      let count := rows.nextScan (-1)
      let events : List GateEvent :=
        [.decode input, .query query (mapIndex dataDecoded field), .next, .scan,
          .switchOn count, .close]
      if count = 1 then ⟨s1, events, none, none⟩
      else if count = 0 then ⟨s1, events, input, none⟩
      else ⟨s1, events, none, some (.errorf (countMessage count))⟩

/-! ### Reading a call of the transformer -/

/-- The value of `count` each `switch count` of a call branched on. -/
def inspected : List GateEvent → List Int
  | [] => []
  | .switchOn c :: es => c :: inspected es
  | _ :: es => inspected es

/-- How many times a call ran `rows.Scan`. -/
def scans : List GateEvent → Nat
  | [] => 0
  | .scan :: es => scans es + 1
  | _ :: es => scans es

/-! ## Setup: `ProvideConsumer` and `ProvideTransformer` -/

/-- How a provider function ends. -/
inductive Setup (α : Type) where
  /-- a run-time panic -/
  | panicked
  /-- the return `nil, err` -/
  | failed (err : GoError)
  /-- the return `f, nil` of a closure `f` -/
  | ready (f : α)

/-- A provider call: the connection strings it passed to `sql.Open`, in order, and how it
ended. -/
structure Provided (α : Type) where
  opened : List String
  result : Setup α

/-- The type `sdk.Consumer`, run on the host's end of `errs`, a backend state and the records
of `recv`. -/
abbrev Consumer (σ : Type) := ErrChan → σ → List ByteSlice → σ × List Event

/-- The type `sdk.Transformer`, run on a backend state and one record. -/
abbrev Transformer (σ : Type) := σ → ByteSlice → GateRun σ

/-- The statement text of export.go 121-122; `none` when `repeat` panics. -/
def insertQuery (table : String) (fields : List String) : Option String :=
  match «repeat» "?" (fields.length : Int) with
  | none => none
  | some marks =>
    some ("INSERT IGNORE INTO " ++ table ++ " (" ++ String.intercalate ", " fields
      ++ ") VALUES (" ++ String.intercalate ", " marks ++ ")")

/-- The statement text of export.go 168. -/
def countQuery (table : String) (field : String) : String :=
  "SELECT count(*) FROM " ++ table ++ " where " ++ field ++ "=?"

/-- The function `ProvideConsumer` of the resource `mysql-table` (export.go 103-141).
`db.SetConnMaxLifetime` only sets a time limit inside the pool and is left out. -/
def ProvideConsumer {σ : Type} (env : Env σ) (parse : Parser) : Provided (Consumer σ) :=
  match parse newConfig with
  | (_, some err) => ⟨[], .failed err⟩
  | (config, none) =>
    match decodeFor env.jsonUnmarshal config.Encoding with
    | .error err => ⟨[], .failed err⟩
    | .ok decode =>
      match env.sqlOpen config.Connection with
      | (_, some err) => ⟨[config.Connection], .failed err⟩
      | (db, none) =>
        match insertQuery config.Table config.Fields with
        | none => ⟨[config.Connection], .panicked⟩
        | some query => ⟨[config.Connection], .ready (consumer decode db query config.Fields)⟩

/-- The function `ProvideTransformer` of the resource `mysql-filter` (export.go 147-194). Past the check
on `len(config.Fields)` the index expression `config.Fields[0]` is in range. -/
def ProvideTransformer {σ : Type} (env : Env σ) (parse : Parser) :
    Provided (Transformer σ) :=
  match parse newConfig with
  | (_, some err) => ⟨[], .failed err⟩
  | (config, none) =>
    if h : config.Fields.length ≠ 1 then
      ⟨[], .failed (.errorf "TODO exactly 1 filter field supported for now")⟩
    else
      match decodeFor env.jsonUnmarshal config.Encoding with
      | .error err => ⟨[], .failed err⟩
      | .ok decode =>
        match env.sqlOpen config.Connection with
        | (_, some err) => ⟨[config.Connection], .failed err⟩
        | (db, none) =>
          ⟨[config.Connection],
            .ready (transformer decode db
              (countQuery config.Table (config.Fields.get ⟨0, by omega⟩))
              (config.Fields.get ⟨0, by omega⟩))⟩

/-! ## Values the statements are written with, and sample collaborators -/

/-- The value the loop of `pickOrdered` stores for the field `f`. -/
def pickedValue (kvs : KVs) (f : String) : Value :=
  match mapLookup kvs f with
  | none => Value.null
  | some v => v

/-- A decoder for concrete runs: a nil or empty record does not decode, any other record
decodes to one key, `id`, holding its first byte. -/
def sampleDecode : Decoder
  | some (b :: _) => ([("id", Value.number b.toNat)], none)
  | _ => ([], some (.lib "encoding/json" "unexpected end of JSON input"))

/-- The count the sample backend holds for a key: 1 for 7, 0 for 8, 2 for 9, no row else. -/
def sampleCount (key : Nat) : Option Int :=
  if key = 7 then some 1 else if key = 8 then some 0 else if key = 9 then some 2 else none

/-- A backend for concrete runs. Its state counts the calls it took. The third call fails
when it is a write; a count query fails for a key that is no number. -/
def sampleDb : DB Nat where
  exec := fun s _ _ =>
    (s + 1, if s = 2 then some (.lib "database/sql" "connection refused") else none)
  query := fun s _ arg =>
    match arg with
    | .number key => (s + 1, (⟨sampleCount key⟩, none))
    | _ => (s + 1, (⟨none⟩, some (.lib "database/sql" "bad connection")))

/-- A backend for concrete runs whose writes all succeed. -/
def steadyDb : DB Nat where
  exec := fun s _ _ => (s + 1, none)
  query := sampleDb.query

/-- Libraries for concrete runs: only the empty connection string fails to open. -/
def sampleEnv : Env Nat where
  jsonUnmarshal := sampleDecode
  sqlOpen := fun connection =>
    (sampleDb, if connection = "" then some (.lib "database/sql" "invalid DSN") else none)

/-- A parser for concrete runs: it fills the struct with `config` and succeeds. -/
def sampleParse (config : Config) : Parser :=
  fun _ => (config, none)

/-! ## Lemmas on the two slice-filling loops -/

/-- Overwriting the first cell past a filled prefix. -/
theorem set_after_prefix {α : Type} (pre rest : List α) (old new : α) :
    (pre ++ old :: rest).set pre.length new = pre ++ new :: rest := by
  induction pre with
  | nil => rfl
  | cons a pre ih => simp [List.set, ih]

/-- The loop of `pickOrdered`, started with the cells before `pre.length` already filled. -/
theorem pickOrdered_loop (kvs : KVs) (fields : List String) (pre : List Value) :
    (fields.enumFrom pre.length).foldl
        (fun picked (p : Nat × String) =>
          match mapLookup kvs p.2 with
          | none => picked.set p.1 Value.null
          | some v => picked.set p.1 v)
        (pre ++ List.replicate fields.length Value.null)
      = pre ++ fields.map (pickedValue kvs) := by
  induction fields generalizing pre with
  | nil => simp
  | cons f fs ih =>
    have step : ∀ v : Value,
        (pre ++ List.replicate (f :: fs).length Value.null).set pre.length v
          = (pre ++ [v]) ++ List.replicate fs.length Value.null := by
      intro v
      simp only [List.length_cons, List.replicate_succ, set_after_prefix, List.append_assoc,
        List.singleton_append]
    have hlen : pre.length + 1 = (pre ++ [pickedValue kvs f]).length := by simp
    simp only [List.enumFrom_cons, List.foldl_cons, List.map_cons]
    cases hk : mapLookup kvs f with
    | none =>
      have hv : pickedValue kvs f = Value.null := by simp [pickedValue, hk]
      rw [hv] at hlen
      simp only [step, hv]
      rw [hlen, ih]
      simp
    | some v =>
      have hv : pickedValue kvs f = v := by simp [pickedValue, hk]
      rw [hv] at hlen
      simp only [step, hv]
      rw [hlen, ih]
      simp

/-- The result of `pickOrdered` is the field list mapped through the lookup. -/
theorem pickOrdered_eq_map (fields : List String) (kvs : KVs) :
    pickOrdered fields kvs = fields.map (pickedValue kvs) := by
  have h := pickOrdered_loop kvs fields []
  simpa [pickOrdered, List.enum] using h

/-- The loop of `repeat` after `k` rounds: `k` cells hold `r`, the others the zero value. -/
theorem repeat_loop {T : Type} (r z : T) (n k : Nat) (hk : k ≤ n) :
    (List.range k).foldl (fun ts i => ts.set i r) (List.replicate n z)
      = List.replicate k r ++ List.replicate (n - k) z := by
  induction k with
  | zero => simp
  | succ k ih =>
    have hk1 : k ≤ n := Nat.le_of_succ_le hk
    have hsplit : n - k = (n - (k + 1)) + 1 := by omega
    rw [List.range_succ, List.foldl_append, ih hk1, hsplit, List.replicate_succ]
    have hset := set_after_prefix (List.replicate k r) (List.replicate (n - (k + 1)) z) z r
    rw [List.length_replicate] at hset
    simp only [List.foldl_cons, List.foldl_nil, hset]
    rw [List.replicate_succ', List.append_assoc, List.singleton_append]

/-- The result of `repeat` on a count that is a length: that many copies. -/
theorem repeat_natCast {T : Type} [Inhabited T] (r : T) (n : Nat) :
    «repeat» r (n : Int) = some (List.replicate n r) := by
  have hneg : ¬ ((n : Int) < 0) := by omega
  have h := repeat_loop r (default : T) n n (Nat.le_refl n)
  simp only [«repeat», hneg, if_false, Int.toNat_ofNat, h, Nat.sub_self, List.replicate_zero,
    List.append_nil]

/-- The characters `strings.Join` produces past the first element. -/
theorem intercalate_go_data (acc sep : String) (xs : List String) :
    (String.intercalate.go acc sep xs).data
      = acc.data ++ (xs.map (fun x => sep.data ++ x.data)).flatten := by
  induction xs generalizing acc with
  | nil => simp [String.intercalate.go]
  | cons x xs ih => simp [String.intercalate.go, ih, List.append_assoc]

/-- The characters of the placeholder list text hold one question mark per placeholder. -/
theorem marks_count (n : Nat) :
    (String.intercalate ", " (List.replicate n "?")).data.count '?' = n := by
  cases n with
  | zero => rfl
  | succ n =>
    have hjoin : ∀ m : Nat,
        ((List.replicate m "?").map (fun x => (", " : String).data ++ x.data)).flatten.count '?'
          = m := by
      intro m
      induction m with
      | zero => rfl
      | succ m ih =>
        rw [List.replicate_succ, List.map_cons, List.flatten_cons, List.count_append, ih]
        have : List.count '?' ((", " : String).data ++ ("?" : String).data) = 1 := by decide
        omega
    rw [List.replicate_succ]
    show (String.intercalate.go "?" ", " (List.replicate n "?")).data.count '?' = n + 1
    rw [intercalate_go_data, List.count_append, hjoin]
    have : List.count '?' ("?" : String).data = 1 := by decide
    omega

/-! ## Lemmas on runs of the consumer -/

theorem writes_append (xs ys : List Event) : writes (xs ++ ys) = writes xs ++ writes ys := by
  induction xs with
  | nil => rfl
  | cons x xs ih => cases x <;> simp [writes, ih]

theorem errorsSent_append (xs ys : List Event) :
    errorsSent (xs ++ ys) = errorsSent xs ++ errorsSent ys := by
  induction xs with
  | nil => rfl
  | cons x xs ih => cases x <;> simp [errorsSent, ih]

theorem decoded_append (xs ys : List Event) : decoded (xs ++ ys) = decoded xs ++ decoded ys := by
  induction xs with
  | nil => rfl
  | cons x xs ih => cases x <;> simp [decoded, ih]

theorem doneSignals_append (xs ys : List Event) :
    doneSignals (xs ++ ys) = doneSignals xs + doneSignals ys := by
  induction xs with
  | nil => simp [doneSignals]
  | cons x xs ih => cases x <;> simp [doneSignals, ih]; omega

theorem blockedSends_append (xs ys : List Event) :
    blockedSends (xs ++ ys) = blockedSends xs + blockedSends ys := by
  induction xs with
  | nil => simp [blockedSends]
  | cons x xs ih => cases x <;> simp [blockedSends, ih]; omega

/-- The events of records that all went through, seen through the five projections. -/
theorem okSteps_projections (decode : Decoder) (query : String) (fields : List String)
    (recs : List ByteSlice) :
    writes (recs.flatMap (okSteps decode query fields))
        = recs.map (fun r => (query, pickOrdered fields (decode r).1))
      ∧ errorsSent (recs.flatMap (okSteps decode query fields)) = []
      ∧ decoded (recs.flatMap (okSteps decode query fields)) = recs
      ∧ doneSignals (recs.flatMap (okSteps decode query fields)) = 0
      ∧ blockedSends (recs.flatMap (okSteps decode query fields)) = 0 := by
  induction recs with
  | nil => simp [writes, errorsSent, decoded, doneSignals, blockedSends]
  | cons r rs ih =>
    obtain ⟨h1, h2, h3, h4, h5⟩ := ih
    rw [List.flatMap_cons, writes_append, errorsSent_append, decoded_append, doneSignals_append,
      blockedSends_append, h1, h2, h3, h4, h5]
    simp [okSteps, writes, errorsSent, decoded, doneSignals, blockedSends]

/-- A prefix of records that decode and whose writes succeed is worked through one by one,
and the loop goes on with the records behind it. -/
theorem consumerLoop_prefix {σ : Type} (decode : Decoder) (db : DB σ) (query : String)
    (fields : List String) (errs : ErrChan) (pre rest : List ByteSlice) (s s1 : σ)
    (hdec : ∀ r ∈ pre, (decode r).2 = none)
    (hw : execAll db query s (pre.map (fun r => pickOrdered fields (decode r).1)) = some s1) :
    consumerLoop decode db query fields errs s (pre ++ rest)
      = ((consumerLoop decode db query fields errs s1 rest).1,
          pre.flatMap (okSteps decode query fields)
            ++ (consumerLoop decode db query fields errs s1 rest).2.1,
          (consumerLoop decode db query fields errs s1 rest).2.2) := by
  induction pre generalizing s with
  | nil =>
    simp only [List.map_nil, execAll, Option.some.injEq] at hw
    subst hw
    simp
  | cons r rs ih =>
    have hr : (decode r).2 = none := hdec r (List.mem_cons_self r rs)
    have hrs : ∀ x ∈ rs, (decode x).2 = none := fun x hx => hdec x (List.mem_cons_of_mem r hx)
    rcases hd : decode r with ⟨kvs, err⟩
    rw [hd] at hr
    simp only at hr
    subst hr
    simp only [List.map_cons, execAll, hd] at hw
    rcases he : db.exec s query (pickOrdered fields kvs) with ⟨s2, err⟩
    rw [he] at hw
    cases err with
    | some e => simp at hw
    | none =>
      simp only at hw
      have ih2 := ih s2 hrs hw
      simp only [List.cons_append, consumerLoop, hd, he, List.append_eq, ih2, List.flatMap_cons,
        okSteps, List.nil_append]

/-- A backend whose writes never fail takes every list of writes. -/
theorem execAll_of_always {σ : Type} (db : DB σ) (query : String)
    (hexec : ∀ (s : σ) (q : String) (args : List Value), (db.exec s q args).2 = none)
    (argss : List (List Value)) (s : σ) : ∃ s1, execAll db query s argss = some s1 := by
  induction argss generalizing s with
  | nil => exact ⟨s, rfl⟩
  | cons args rest ih =>
    have h := hexec s query args
    rcases he : db.exec s query args with ⟨s2, err⟩
    rw [he] at h
    simp only at h
    subst h
    obtain ⟨s3, h3⟩ := ih s2
    exact ⟨s3, by simp only [execAll, he, h3]⟩

/-- The run of the consumer on records that go through followed by one whose handling ends
in a send of `e` after the events `last`: the trace when the host takes the error, and the
trace when it does not. -/
theorem consumer_stop {σ : Type} (decode : Decoder) (db : DB σ) (query : String)
    (fields : List String) (errs : ErrChan) (pre rest : List ByteSlice) (s s1 s2 : σ)
    (last : List Event) (e : GoError)
    (hdec : ∀ r ∈ pre, (decode r).2 = none)
    (hw : execAll db query s (pre.map (fun r => pickOrdered fields (decode r).1)) = some s1)
    (hstop : consumerLoop decode db query fields errs s1 rest
      = (s2, last ++ (sendOn errs e).1, (sendOn errs e).2)) :
    (errs.taken = true →
        (consumer decode db query fields errs s (pre ++ rest)).2
          = pre.flatMap (okSteps decode query fields)
              ++ (last ++ [Event.sendErr e, Event.closeErrs, Event.closeDone]))
      ∧ (errs.taken = false →
        (consumer decode db query fields errs s (pre ++ rest)).2
          = pre.flatMap (okSteps decode query fields) ++ (last ++ [Event.sendBlocked e])) := by
  have hloop := consumerLoop_prefix decode db query fields errs pre rest s s1 hdec hw
  constructor
  · intro ht
    simp [consumer, hloop, hstop, sendOn, ht]
  · intro ht
    simp [consumer, hloop, hstop, sendOn, ht]

/-! ## The field projector and the insert statement -/

/-- C1: for every field list and every decoded mapping, `pickOrdered` returns (it is a total
function) a sequence as long as the field list, whose `i`-th element is the value the mapping
holds under `fields[i]` when the key is present and the null placeholder when it is absent. -/
theorem pickOrdered_spec (fields : List String) (kvs : KVs) :
    (pickOrdered fields kvs).length = fields.length
      ∧ ∀ i : Nat, (pickOrdered fields kvs)[i]?
          = (fields[i]?).map (fun f =>
              match mapLookup kvs f with
              | some v => v
              | none => Value.null) := by
  have hfun : (fun f => match mapLookup kvs f with
      | some v => v
      | none => Value.null) = pickedValue kvs := by
    funext f
    unfold pickedValue
    cases mapLookup kvs f <;> rfl
  rw [hfun, pickOrdered_eq_map]
  exact ⟨List.length_map _ _, fun i => List.getElem?_map _ _ _⟩

/-- C9: for every table name and field list, the statement the consumer is set up with is
`INSERT IGNORE INTO <table> (<fields joined by ", ">) VALUES (<one "?" per field joined by
", ">)`: building it never panics, `repeat("?", n)` is the list of `n` copies of `"?"`, the
placeholder text holds exactly `n` question marks, and a setup that parses, asks for JSON and
opens its connection returns the consumer closure over this very text. -/
theorem insert_statement_text {σ : Type} (env : Env σ) (parse : Parser) (config : Config)
    (db : DB σ) (table : String) (fields : List String) (n : Nat) :
    insertQuery table fields
        = some ("INSERT IGNORE INTO " ++ table ++ " (" ++ String.intercalate ", " fields
            ++ ") VALUES (" ++ String.intercalate ", " (List.replicate fields.length "?") ++ ")")
      ∧ «repeat» "?" (n : Int) = some (List.replicate n "?")
      ∧ (String.intercalate ", " (List.replicate n "?")).data.count '?' = n
      ∧ (parse newConfig = (config, none) → config.Encoding = "JSON" →
          env.sqlOpen config.Connection = (db, none) →
          ProvideConsumer env parse
            = ⟨[config.Connection],
                .ready (consumer env.jsonUnmarshal db
                  ("INSERT IGNORE INTO " ++ config.Table ++ " ("
                    ++ String.intercalate ", " config.Fields ++ ") VALUES ("
                    ++ String.intercalate ", " (List.replicate config.Fields.length "?") ++ ")")
                  config.Fields)⟩) := by
  have hq : ∀ (t : String) (fs : List String), insertQuery t fs
      = some ("INSERT IGNORE INTO " ++ t ++ " (" ++ String.intercalate ", " fs
          ++ ") VALUES (" ++ String.intercalate ", " (List.replicate fs.length "?") ++ ")") := by
    intro t fs
    simp only [insertQuery, repeat_natCast]
  refine ⟨hq table fields, repeat_natCast "?" n, marks_count n, ?_⟩
  intro hparse henc hopen
  simp only [ProvideConsumer, hparse, decodeFor, henc, if_true, hopen, hq]

/-- Witness of C9: the table `events` with the fields `id` and `name`. -/
theorem insert_statement_text_witness :
    insertQuery "events" ["id", "name"]
        = some "INSERT IGNORE INTO events (id, name) VALUES (?, ?)"
      ∧ ProvideConsumer sampleEnv (sampleParse ⟨"dsn", "events", ["id", "name"], "JSON", 1⟩)
          = ⟨["dsn"],
              .ready (consumer sampleDecode sampleDb
                "INSERT IGNORE INTO events (id, name) VALUES (?, ?)" ["id", "name"])⟩ :=
  have h := insert_statement_text sampleEnv
    (sampleParse ⟨"dsn", "events", ["id", "name"], "JSON", 1⟩)
    ⟨"dsn", "events", ["id", "name"], "JSON", 1⟩ sampleDb "events" ["id", "name"] 2
  ⟨h.1, h.2.2.2 rfl rfl rfl⟩

/-! ## The consumer -/

/-- C2: if every record of the stream decodes and the backend lets every write succeed, then
whatever the host does with `errs`, the consumer decodes and writes the records one by one in
input order, the `i`-th write binding `pickOrdered(fields, decode(record i))` to the
statement, so `N` records give exactly `N` writes; it then closes `errs` and `done`, having
sent no error, and `done` is closed once. -/
theorem sink_success {σ : Type} (decode : Decoder) (db : DB σ) (query : String)
    (fields : List String) (errs : ErrChan) (s : σ) (recv : List ByteSlice)
    (hdec : ∀ r ∈ recv, (decode r).2 = none)
    (hexec : ∀ (s : σ) (q : String) (args : List Value), (db.exec s q args).2 = none) :
    (consumer decode db query fields errs s recv).2
        = recv.flatMap (okSteps decode query fields) ++ [Event.closeErrs, Event.closeDone]
      ∧ writes (consumer decode db query fields errs s recv).2
          = recv.map (fun r => (query, pickOrdered fields (decode r).1))
      ∧ (writes (consumer decode db query fields errs s recv).2).length = recv.length
      ∧ errorsSent (consumer decode db query fields errs s recv).2 = []
      ∧ blockedSends (consumer decode db query fields errs s recv).2 = 0
      ∧ doneSignals (consumer decode db query fields errs s recv).2 = 1 := by
  obtain ⟨s1, hw⟩ := execAll_of_always db query hexec
    (recv.map (fun r => pickOrdered fields (decode r).1)) s
  have hloop := consumerLoop_prefix decode db query fields errs recv [] s s1 hdec hw
  rw [List.append_nil] at hloop
  obtain ⟨h1, h2, _, h4, h5⟩ := okSteps_projections decode query fields recv
  have htrace : (consumer decode db query fields errs s recv).2
      = recv.flatMap (okSteps decode query fields) ++ [Event.closeErrs, Event.closeDone] := by
    simp [consumer, hloop, consumerLoop]
  rw [htrace, writes_append, errorsSent_append, doneSignals_append, blockedSends_append, h1, h2,
    h4, h5]
  simp [writes, errorsSent, doneSignals, blockedSends]

/-- Witness of C2: two records on a backend whose writes succeed, and a host that would not
take an error. -/
theorem sink_success_witness :
    (∀ r ∈ [some [7], some [8]], (sampleDecode r).2 = none)
      ∧ (consumer sampleDecode steadyDb "Q" ["id", "x"] ⟨false⟩ 0 [some [7], some [8]]).2
          = [Event.decode (some [7]), Event.exec "Q" [Value.number 7, Value.null],
              Event.decode (some [8]), Event.exec "Q" [Value.number 8, Value.null],
              Event.closeErrs, Event.closeDone]
      ∧ errorsSent
          (consumer sampleDecode steadyDb "Q" ["id", "x"] ⟨false⟩ 0 [some [7], some [8]]).2 = []
      ∧ doneSignals
          (consumer sampleDecode steadyDb "Q" ["id", "x"] ⟨false⟩ 0 [some [7], some [8]]).2
          = 1 :=
  have hdec : ∀ r ∈ [some [7], some [8]], (sampleDecode r).2 = none := by decide
  have h := sink_success sampleDecode steadyDb "Q" ["id", "x"] ⟨false⟩ 0 [some [7], some [8]]
    hdec (fun _ _ _ => rfl)
  ⟨hdec, h.1, h.2.2.2.1, h.2.2.2.2.2⟩

/-- C3, as the claim states it, fails: the first record decodes and is written, the second is
empty and does not decode, and the host never takes a value from `errs`. The send
`errs <- err` then blocks for good: no error reaches the host and `done` is never closed. -/
theorem sink_decode_failure_counterexample :
    (sampleDecode (some [7])).2 = none
      ∧ execAll sampleDb "Q" 0 [pickOrdered ["id"] (sampleDecode (some [7])).1] = some 1
      ∧ (sampleDecode (some [])).2 = some (.lib "encoding/json" "unexpected end of JSON input")
      ∧ (consumer sampleDecode sampleDb "Q" ["id"] ⟨false⟩ 0 [some [7], some []]).2
          = [Event.decode (some [7]), Event.exec "Q" [Value.number 7], Event.decode (some []),
              Event.sendBlocked (.lib "encoding/json" "unexpected end of JSON input")]
      ∧ doneSignals (consumer sampleDecode sampleDb "Q" ["id"] ⟨false⟩ 0 [some [7], some []]).2
          ≠ 1
      ∧ errorsSent (consumer sampleDecode sampleDb "Q" ["id"] ⟨false⟩ 0 [some [7], some []]).2
          ≠ [.lib "encoding/json" "unexpected end of JSON input"] := by
  refine ⟨rfl, rfl, rfl, rfl, ?_, ?_⟩
  · decide
  · decide

/-- C3, amended: if record `k` is the first that fails to decode (the `k - 1` records of
`pre` before it decode) and the writes for the earlier records succeed, the consumer makes
exactly those `k - 1` writes, in order, decodes nothing behind record `k`, and then sends the
decode error of record `k` on `errs`. If the host takes that error, exactly one error is
signalled and the consumer closes `errs` and then `done`, once. If the host never takes it,
the consumer stays blocked in the send: no error is signalled and `done` is not closed. -/
theorem sink_decode_failure {σ : Type} (decode : Decoder) (db : DB σ) (query : String)
    (fields : List String) (errs : ErrChan) (s s1 : σ) (pre : List ByteSlice)
    (bad : ByteSlice) (post : List ByteSlice) (e : GoError)
    (hdec : ∀ r ∈ pre, (decode r).2 = none)
    (hw : execAll db query s (pre.map (fun r => pickOrdered fields (decode r).1)) = some s1)
    (hbad : (decode bad).2 = some e) :
    writes (consumer decode db query fields errs s (pre ++ bad :: post)).2
        = pre.map (fun r => (query, pickOrdered fields (decode r).1))
      ∧ (writes (consumer decode db query fields errs s (pre ++ bad :: post)).2).length
          = pre.length
      ∧ decoded (consumer decode db query fields errs s (pre ++ bad :: post)).2 = pre ++ [bad]
      ∧ (errs.taken = true →
          (consumer decode db query fields errs s (pre ++ bad :: post)).2
              = pre.flatMap (okSteps decode query fields)
                  ++ [Event.decode bad, Event.sendErr e, Event.closeErrs, Event.closeDone]
            ∧ errorsSent (consumer decode db query fields errs s (pre ++ bad :: post)).2 = [e]
            ∧ doneSignals (consumer decode db query fields errs s (pre ++ bad :: post)).2 = 1)
      ∧ (errs.taken = false →
          (consumer decode db query fields errs s (pre ++ bad :: post)).2
              = pre.flatMap (okSteps decode query fields)
                  ++ [Event.decode bad, Event.sendBlocked e]
            ∧ errorsSent (consumer decode db query fields errs s (pre ++ bad :: post)).2 = []
            ∧ doneSignals (consumer decode db query fields errs s (pre ++ bad :: post)).2
                = 0) := by
  obtain ⟨h1, h2, h3, h4, _⟩ := okSteps_projections decode query fields pre
  have hstop : consumerLoop decode db query fields errs s1 (bad :: post)
      = (s1, [Event.decode bad] ++ (sendOn errs e).1, (sendOn errs e).2) := by
    rcases hd : decode bad with ⟨kvs, err⟩
    rw [hd] at hbad
    simp only at hbad
    subst hbad
    simp only [consumerLoop, hd, List.singleton_append]
  obtain ⟨htaken, hblocked⟩ := consumer_stop decode db query fields errs pre (bad :: post) s s1
    s1 [Event.decode bad] e hdec hw hstop
  have hboth : writes (consumer decode db query fields errs s (pre ++ bad :: post)).2
        = pre.map (fun r => (query, pickOrdered fields (decode r).1))
      ∧ decoded (consumer decode db query fields errs s (pre ++ bad :: post)).2
        = pre ++ [bad] := by
    cases ht : errs.taken with
    | true =>
      rw [htaken ht, writes_append, decoded_append, h1, h3]
      simp [writes, decoded]
    | false =>
      rw [hblocked ht, writes_append, decoded_append, h1, h3]
      simp [writes, decoded]
  refine ⟨hboth.1, ?_, hboth.2, ?_, ?_⟩
  · rw [hboth.1, List.length_map]
  · intro ht
    rw [htaken ht, errorsSent_append, doneSignals_append, h2, h4]
    simp [errorsSent, doneSignals]
  · intro ht
    rw [hblocked ht, errorsSent_append, doneSignals_append, h2, h4]
    simp [errorsSent, doneSignals]

/-- Witness of C3: the third of four records is empty and does not decode; the host takes
the error. -/
theorem sink_decode_failure_witness :
    (consumer sampleDecode sampleDb "Q" ["id"] ⟨true⟩ 0
          ([some [7], some [8]] ++ some [] :: [some [9]])).2
        = [Event.decode (some [7]), Event.exec "Q" [Value.number 7],
            Event.decode (some [8]), Event.exec "Q" [Value.number 8],
            Event.decode (some []),
            Event.sendErr (.lib "encoding/json" "unexpected end of JSON input"),
            Event.closeErrs, Event.closeDone]
      ∧ doneSignals
          (consumer sampleDecode sampleDb "Q" ["id"] ⟨true⟩ 0
            ([some [7], some [8]] ++ some [] :: [some [9]])).2 = 1 :=
  have h := (sink_decode_failure sampleDecode sampleDb "Q" ["id"] ⟨true⟩ 0 2
    [some [7], some [8]] (some []) [some [9]]
    (.lib "encoding/json" "unexpected end of JSON input") (by decide) rfl rfl).2.2.2.1 rfl
  ⟨h.1, h.2.2⟩

/-- C4, as the claim states it, fails: the one record decodes, its write fails on a backend
whose write number three fails (the state starts at 2), and the host never takes a value from
`errs`. The send `errs <- err` then blocks for good: no error reaches the host and `done` is
never closed. -/
theorem sink_write_failure_counterexample :
    (sampleDecode (some [7])).2 = none
      ∧ sampleDb.exec 2 "Q" (pickOrdered ["id"] (sampleDecode (some [7])).1)
          = (3, some (.lib "database/sql" "connection refused"))
      ∧ (consumer sampleDecode sampleDb "Q" ["id"] ⟨false⟩ 2 [some [7]]).2
          = [Event.decode (some [7]), Event.exec "Q" [Value.number 7],
              Event.sendBlocked (.lib "database/sql" "connection refused")]
      ∧ doneSignals (consumer sampleDecode sampleDb "Q" ["id"] ⟨false⟩ 2 [some [7]]).2 ≠ 1
      ∧ errorsSent (consumer sampleDecode sampleDb "Q" ["id"] ⟨false⟩ 2 [some [7]]).2
          ≠ [.lib "database/sql" "connection refused"] := by
  refine ⟨rfl, rfl, rfl, ?_, ?_⟩
  · decide
  · decide

/-- C4, amended: if records `1..k` decode (`pre` and then `r`), the writes for the `k - 1`
records of `pre` succeed and the write for record `k` fails with the backend error `e`, the
consumer makes exactly `k` write attempts, in order, decodes and writes nothing behind record
`k`, and then sends `e` itself on `errs`. If the host takes that error, exactly one error is
signalled, which is `e` unchanged, and the consumer closes `errs` and then `done`, once. If
the host never takes it, the consumer stays blocked in the send: no error is signalled and
`done` is not closed. -/
theorem sink_write_failure {σ : Type} (decode : Decoder) (db : DB σ) (query : String)
    (fields : List String) (errs : ErrChan) (s s1 s2 : σ) (pre : List ByteSlice)
    (r : ByteSlice) (post : List ByteSlice) (e : GoError)
    (hdec : ∀ x ∈ pre ++ [r], (decode x).2 = none)
    (hw : execAll db query s (pre.map (fun x => pickOrdered fields (decode x).1)) = some s1)
    (hfail : db.exec s1 query (pickOrdered fields (decode r).1) = (s2, some e)) :
    writes (consumer decode db query fields errs s (pre ++ r :: post)).2
        = (pre ++ [r]).map (fun x => (query, pickOrdered fields (decode x).1))
      ∧ (writes (consumer decode db query fields errs s (pre ++ r :: post)).2).length
          = pre.length + 1
      ∧ decoded (consumer decode db query fields errs s (pre ++ r :: post)).2 = pre ++ [r]
      ∧ (errs.taken = true →
          (consumer decode db query fields errs s (pre ++ r :: post)).2
              = pre.flatMap (okSteps decode query fields)
                  ++ [Event.decode r, Event.exec query (pickOrdered fields (decode r).1),
                      Event.sendErr e, Event.closeErrs, Event.closeDone]
            ∧ errorsSent (consumer decode db query fields errs s (pre ++ r :: post)).2 = [e]
            ∧ doneSignals (consumer decode db query fields errs s (pre ++ r :: post)).2 = 1)
      ∧ (errs.taken = false →
          (consumer decode db query fields errs s (pre ++ r :: post)).2
              = pre.flatMap (okSteps decode query fields)
                  ++ [Event.decode r, Event.exec query (pickOrdered fields (decode r).1),
                      Event.sendBlocked e]
            ∧ errorsSent (consumer decode db query fields errs s (pre ++ r :: post)).2 = []
            ∧ doneSignals (consumer decode db query fields errs s (pre ++ r :: post)).2
                = 0) := by
  have hpre : ∀ x ∈ pre, (decode x).2 = none :=
    fun x hx => hdec x (List.mem_append_left [r] hx)
  have hr : (decode r).2 = none := hdec r (by simp)
  obtain ⟨h1, h2, h3, h4, _⟩ := okSteps_projections decode query fields pre
  have hstop : consumerLoop decode db query fields errs s1 (r :: post)
      = (s2, [Event.decode r, Event.exec query (pickOrdered fields (decode r).1)]
          ++ (sendOn errs e).1, (sendOn errs e).2) := by
    rcases hd : decode r with ⟨kvs, err⟩
    rw [hd] at hr hfail
    simp only at hr hfail
    subst hr
    simp only [consumerLoop, hd, hfail, List.cons_append, List.nil_append]
  obtain ⟨htaken, hblocked⟩ := consumer_stop decode db query fields errs pre (r :: post) s s1
    s2 [Event.decode r, Event.exec query (pickOrdered fields (decode r).1)] e hpre hw hstop
  have hboth : writes (consumer decode db query fields errs s (pre ++ r :: post)).2
        = (pre ++ [r]).map (fun x => (query, pickOrdered fields (decode x).1))
      ∧ decoded (consumer decode db query fields errs s (pre ++ r :: post)).2
        = pre ++ [r] := by
    cases ht : errs.taken with
    | true =>
      rw [htaken ht, writes_append, decoded_append, h1, h3]
      simp [writes, decoded]
    | false =>
      rw [hblocked ht, writes_append, decoded_append, h1, h3]
      simp [writes, decoded]
  refine ⟨hboth.1, ?_, hboth.2, ?_, ?_⟩
  · rw [hboth.1, List.length_map, List.length_append, List.length_singleton]
  · intro ht
    rw [htaken ht, errorsSent_append, doneSignals_append, h2, h4]
    simp [errorsSent, doneSignals]
  · intro ht
    rw [hblocked ht, errorsSent_append, doneSignals_append, h2, h4]
    simp [errorsSent, doneSignals]

/-- Witness of C4: the third write of the sample backend fails; the host takes the error. -/
theorem sink_write_failure_witness :
    (consumer sampleDecode sampleDb "Q" ["id"] ⟨true⟩ 0
          ([some [7], some [8]] ++ some [9] :: [some [7]])).2
        = [Event.decode (some [7]), Event.exec "Q" [Value.number 7],
            Event.decode (some [8]), Event.exec "Q" [Value.number 8],
            Event.decode (some [9]), Event.exec "Q" [Value.number 9],
            Event.sendErr (.lib "database/sql" "connection refused"),
            Event.closeErrs, Event.closeDone]
      ∧ errorsSent
          (consumer sampleDecode sampleDb "Q" ["id"] ⟨true⟩ 0
            ([some [7], some [8]] ++ some [9] :: [some [7]])).2
          = [.lib "database/sql" "connection refused"] :=
  have h := (sink_write_failure sampleDecode sampleDb "Q" ["id"] ⟨true⟩ 0 2 3
    [some [7], some [8]] (some [9]) [some [7]] (.lib "database/sql" "connection refused")
    (by decide) rfl rfl).2.2.2.1 rfl
  ⟨h.1, h.2.1⟩

/-! ## The transformer -/

/-- What a call of the transformer does once the record has decoded and `db.Query` has
returned rows with a nil error. -/
theorem transformer_rows {σ : Type} (decode : Decoder) (db : DB σ) (query field : String)
    (s s1 : σ) (input : ByteSlice) (kvs : KVs) (rows : Rows)
    (hdec : decode input = (kvs, none))
    (hq : db.query s query (mapIndex kvs field) = (s1, (rows, none))) :
    transformer decode db query field s input
      = if rows.nextScan (-1) = 1 then
          ⟨s1, [.decode input, .query query (mapIndex kvs field), .next, .scan,
            .switchOn (rows.nextScan (-1)), .close], none, none⟩
        else if rows.nextScan (-1) = 0 then
          ⟨s1, [.decode input, .query query (mapIndex kvs field), .next, .scan,
            .switchOn (rows.nextScan (-1)), .close], input, none⟩
        else
          ⟨s1, [.decode input, .query query (mapIndex kvs field), .next, .scan,
            .switchOn (rows.nextScan (-1)), .close], none,
            some (.errorf (countMessage (rows.nextScan (-1))))⟩ := by
  simp only [transformer, hdec, hq]

/-- C5: for a record that decodes and whose existence query succeeds and scans the count `c`,
the transformer returns no error, and returns the input bytes themselves when `c = 0` and the
nil (no output) result when `c = 1`. -/
theorem gate_pass_and_suppress {σ : Type} (decode : Decoder) (db : DB σ)
    (query field : String) (s s1 : σ) (input : ByteSlice) (kvs : KVs) (rows : Rows) (c : Int)
    (hdec : decode input = (kvs, none))
    (hq : db.query s query (mapIndex kvs field) = (s1, (rows, none)))
    (hscan : rows.firstScan = some c) :
    (c = 0 → (transformer decode db query field s input).out = input
        ∧ (transformer decode db query field s input).err = none)
      ∧ (c = 1 → (transformer decode db query field s input).out = none
        ∧ (transformer decode db query field s input).err = none) := by
  have hc : rows.nextScan (-1) = c := by simp [Rows.nextScan, hscan]
  rw [transformer_rows decode db query field s s1 input kvs rows hdec hq, hc]
  constructor
  · intro h0
    subst h0
    simp
  · intro h1
    subst h1
    simp

/-- Witness of C5: the key 8 has count 0 and passes, the key 7 has count 1 and is dropped. -/
theorem gate_pass_and_suppress_witness :
    ((transformer sampleDecode sampleDb "Q" "id" 0 (some [8, 1])).out = some [8, 1]
        ∧ (transformer sampleDecode sampleDb "Q" "id" 0 (some [8, 1])).err = none)
      ∧ ((transformer sampleDecode sampleDb "Q" "id" 0 (some [7, 1])).out = none
        ∧ (transformer sampleDecode sampleDb "Q" "id" 0 (some [7, 1])).err = none) :=
  ⟨(gate_pass_and_suppress sampleDecode sampleDb "Q" "id" 0 1 (some [8, 1])
      [("id", Value.number 8)] ⟨some 0⟩ 0 rfl rfl rfl).1 rfl,
    (gate_pass_and_suppress sampleDecode sampleDb "Q" "id" 0 1 (some [7, 1])
      [("id", Value.number 7)] ⟨some 1⟩ 1 rfl rfl rfl).2 rfl⟩

/-- C6: for a record that decodes and whose existence query succeeds, if the count the
`switch` looks at (the scanned count, or the initial `-1` when nothing was scanned) is neither
0 nor 1, the transformer returns no output and the error
`count(*) scanned as <count>, or did not scan if -1`, never success; when no row was scanned
the count in that error is `-1`. -/
theorem gate_unexpected_count {σ : Type} (decode : Decoder) (db : DB σ)
    (query field : String) (s s1 : σ) (input : ByteSlice) (kvs : KVs) (rows : Rows)
    (hdec : decode input = (kvs, none))
    (hq : db.query s query (mapIndex kvs field) = (s1, (rows, none)))
    (h0 : rows.nextScan (-1) ≠ 0) (h1 : rows.nextScan (-1) ≠ 1) :
    (transformer decode db query field s input).out = none
      ∧ (transformer decode db query field s input).err
          = some (.errorf ("count(*) scanned as " ++ toString (rows.nextScan (-1))
              ++ ", or did not scan if -1"))
      ∧ (transformer decode db query field s input).err ≠ none
      ∧ inspected (transformer decode db query field s input).events = [rows.nextScan (-1)]
      ∧ (∀ c : Int, rows.firstScan = some c → rows.nextScan (-1) = c)
      ∧ (rows.firstScan = none → rows.nextScan (-1) = -1) := by
  have hrun : transformer decode db query field s input
      = ⟨s1, [.decode input, .query query (mapIndex kvs field), .next, .scan,
          .switchOn (rows.nextScan (-1)), .close], none,
          some (.errorf (countMessage (rows.nextScan (-1))))⟩ := by
    rw [transformer_rows decode db query field s s1 input kvs rows hdec hq, if_neg h1, if_neg h0]
  rw [hrun]
  refine ⟨rfl, rfl, fun h => Option.noConfusion h, rfl, ?_, ?_⟩
  · intro c hc
    simp [Rows.nextScan, hc]
  · intro hn
    simp [Rows.nextScan, hn]

/-- Witness of C6: the key 9 has count 2. -/
theorem gate_unexpected_count_witness :
    (transformer sampleDecode sampleDb "Q" "id" 0 (some [9])).out = none
      ∧ (transformer sampleDecode sampleDb "Q" "id" 0 (some [9])).err
          = some (.errorf "count(*) scanned as 2, or did not scan if -1") :=
  have h := gate_unexpected_count sampleDecode sampleDb "Q" "id" 0 1 (some [9])
    [("id", Value.number 9)] ⟨some 2⟩ rfl rfl (by decide) (by decide)
  ⟨h.1, h.2.1⟩

/-- C10, as the claim states it, fails: the record `[1]` decodes, the sample backend's
`db.Query` returns an error for its key (the record has no field `name`, so the key is nil),
and the call returns that error at once: it never calls `rows.Scan`, and no `switch` looks at
a count, `-1` or other. -/
theorem gate_query_error_counterexample :
    (sampleDecode (some [1])).2 = none
      ∧ (sampleDb.query 0 "Q" (mapIndex (sampleDecode (some [1])).1 "name")).2.2
          = some (.lib "database/sql" "bad connection")
      ∧ scans (transformer sampleDecode sampleDb "Q" "name" 0 (some [1])).events = 0
      ∧ inspected (transformer sampleDecode sampleDb "Q" "name" 0 (some [1])).events ≠ [-1]
      ∧ (transformer sampleDecode sampleDb "Q" "name" 0 (some [1])).err
          ≠ some (.errorf (countMessage (-1))) := by
  refine ⟨rfl, rfl, rfl, ?_, ?_⟩
  · decide
  · decide

/-- C10, amended: for a record that decodes, when `db.Query` returns an error the transformer
checks it before anything else and returns it unchanged with no output, without calling
`rows.Next` or `rows.Scan` and without looking at the count; it is when `db.Query` returns a
nil error and no row can be scanned (the results of `rows.Next` and `rows.Scan` are not
checked) that the count looked at is the variable's initial value `-1`. -/
theorem gate_query_error {σ : Type} (decode : Decoder) (db : DB σ) (query field : String)
    (s s1 : σ) (input : ByteSlice) (kvs : KVs) (rows : Rows) (qerr : Option GoError)
    (hdec : decode input = (kvs, none))
    (hq : db.query s query (mapIndex kvs field) = (s1, (rows, qerr))) :
    (∀ e : GoError, qerr = some e →
        transformer decode db query field s input
          = ⟨s1, [.decode input, .query query (mapIndex kvs field)], none, some e⟩
        ∧ scans (transformer decode db query field s input).events = 0
        ∧ inspected (transformer decode db query field s input).events = [])
      ∧ (qerr = none → rows.firstScan = none →
          scans (transformer decode db query field s input).events = 1
          ∧ inspected (transformer decode db query field s input).events = [-1]
          ∧ (transformer decode db query field s input).out = none
          ∧ (transformer decode db query field s input).err
              = some (.errorf "count(*) scanned as -1, or did not scan if -1")) := by
  constructor
  · intro e he
    subst he
    have hrun : transformer decode db query field s input
        = ⟨s1, [.decode input, .query query (mapIndex kvs field)], none, some e⟩ := by
      simp only [transformer, hdec, hq]
    rw [hrun]
    exact ⟨rfl, rfl, rfl⟩
  · intro hnone hrows
    subst hnone
    have hc : rows.nextScan (-1) = -1 := by simp [Rows.nextScan, hrows]
    have hn1 : ¬ ((-1 : Int) = 1) := by decide
    have hn0 : ¬ ((-1 : Int) = 0) := by decide
    rw [transformer_rows decode db query field s s1 input kvs rows hdec hq, hc, if_neg hn1,
      if_neg hn0]
    refine ⟨rfl, rfl, rfl, ?_⟩
    show some (GoError.errorf (countMessage (-1))) = _
    have hmsg : countMessage (-1) = "count(*) scanned as -1, or did not scan if -1" := by decide
    rw [hmsg]

/-- Witness of the amended C10: the failing query of the sample backend. -/
theorem gate_query_error_witness :
    transformer sampleDecode sampleDb "Q" "name" 0 (some [1])
      = ⟨1, [.decode (some [1]), .query "Q" Value.null], none,
          some (.lib "database/sql" "bad connection")⟩ :=
  ((gate_query_error sampleDecode sampleDb "Q" "name" 0 1 (some [1]) [("id", Value.number 1)]
    ⟨none⟩ (some (.lib "database/sql" "bad connection")) rfl rfl).1
      (.lib "database/sql" "bad connection") rfl).1

/-! ## Setup -/

/-- C7: for every encoding name other than `JSON`, `decodeFor` returns the error
`no way to decode <name>` and no decoder; a consumer setup whose parsed configuration names
that encoding returns this error, and so does a transformer setup with exactly one field, in
both cases without a call to `sql.Open` and without a closure that could process a record;
for `JSON`, `decodeFor` returns a decoder. -/
theorem unsupported_encoding {σ : Type} (env : Env σ) (parse : Parser) (config : Config)
    (kind : String) (hkind : kind ≠ "JSON")
    (hparse : parse newConfig = (config, none))
    (henc : config.Encoding = kind) :
    decodeFor env.jsonUnmarshal kind = .error (.errorf ("no way to decode " ++ kind))
      ∧ ProvideConsumer env parse = ⟨[], .failed (.errorf ("no way to decode " ++ kind))⟩
      ∧ (config.Fields.length = 1 →
          ProvideTransformer env parse = ⟨[], .failed (.errorf ("no way to decode " ++ kind))⟩)
      ∧ ∃ decode : Decoder, decodeFor env.jsonUnmarshal "JSON" = .ok decode := by
  have hd : decodeFor env.jsonUnmarshal kind
      = .error (.errorf ("no way to decode " ++ kind)) := by
    simp only [decodeFor, hkind, if_false]
  refine ⟨hd, ?_, ?_, ⟨fun input => env.jsonUnmarshal input, by simp only [decodeFor, if_true]⟩⟩
  · simp only [ProvideConsumer, hparse, henc, hd]
  · intro hlen
    have hnot : ¬ (config.Fields.length ≠ 1) := fun h => h hlen
    simp only [ProvideTransformer, hparse, henc, hd, dif_neg hnot]

/-- Witness of C7: the encoding `XML`. -/
theorem unsupported_encoding_witness :
    ProvideConsumer sampleEnv (sampleParse ⟨"dsn", "events", ["id"], "XML", 1⟩)
        = ⟨[], .failed (.errorf "no way to decode XML")⟩
      ∧ ProvideTransformer sampleEnv (sampleParse ⟨"dsn", "events", ["id"], "XML", 1⟩)
        = ⟨[], .failed (.errorf "no way to decode XML")⟩ :=
  have h := unsupported_encoding sampleEnv (sampleParse ⟨"dsn", "events", ["id"], "XML", 1⟩)
    ⟨"dsn", "events", ["id"], "XML", 1⟩ "XML" (by decide) rfl rfl
  ⟨h.2.1, h.2.2.1 rfl⟩

/-- C8: for a parsed configuration whose field list does not have exactly one element, the
transformer setup returns the error `TODO exactly 1 filter field supported for now` and no
transformer, before any call to `sql.Open`; with exactly one field the check passes: setup
goes on, and it returns a transformer unless the encoding is not `JSON` or `sql.Open` returns
an error, which is then the error of the setup. -/
theorem gate_field_count {σ : Type} (env : Env σ) (parse : Parser) (config : Config)
    (hparse : parse newConfig = (config, none)) :
    (config.Fields.length ≠ 1 →
        ProvideTransformer env parse
          = ⟨[], .failed (.errorf "TODO exactly 1 filter field supported for now")⟩)
      ∧ (∀ field : String, config.Fields = [field] →
          (config.Encoding ≠ "JSON" →
            ProvideTransformer env parse
              = ⟨[], .failed (.errorf ("no way to decode " ++ config.Encoding))⟩)
          ∧ (∀ e : GoError, config.Encoding = "JSON" →
              (env.sqlOpen config.Connection).2 = some e →
              ProvideTransformer env parse = ⟨[config.Connection], .failed e⟩)
          ∧ (config.Encoding = "JSON" → (env.sqlOpen config.Connection).2 = none →
              ProvideTransformer env parse
                = ⟨[config.Connection],
                    .ready (transformer env.jsonUnmarshal (env.sqlOpen config.Connection).1
                      (countQuery config.Table field) field)⟩)) := by
  constructor
  · intro hlen
    simp only [ProvideTransformer, hparse, dif_pos hlen]
  · intro field hfields
    have hnot : ¬ (config.Fields.length ≠ 1) := by simp [hfields]
    have hget : ∀ h : 0 < config.Fields.length, config.Fields.get ⟨0, h⟩ = field := by
      intro h
      simp [hfields]
    refine ⟨?_, ?_, ?_⟩
    · intro henc
      simp only [ProvideTransformer, hparse, dif_neg hnot, decodeFor, henc, if_false]
    · intro e henc hopen
      rcases ho : env.sqlOpen config.Connection with ⟨db, err⟩
      rw [ho] at hopen
      simp only at hopen
      subst hopen
      simp only [ProvideTransformer, hparse, dif_neg hnot, decodeFor, henc, if_true, ho]
    · intro henc hopen
      rcases ho : env.sqlOpen config.Connection with ⟨db, err⟩
      rw [ho] at hopen
      simp only at hopen
      subst hopen
      simp only [ProvideTransformer, hparse, dif_neg hnot, decodeFor, henc, if_true, ho, hget]

/-- Witness of C8: the two fields `a` and `b`. -/
theorem gate_field_count_witness :
    ProvideTransformer sampleEnv (sampleParse ⟨"dsn", "events", ["a", "b"], "JSON", 1⟩)
      = ⟨[], .failed (.errorf "TODO exactly 1 filter field supported for now")⟩ :=
  (gate_field_count sampleEnv (sampleParse ⟨"dsn", "events", ["a", "b"], "JSON", 1⟩)
    ⟨"dsn", "events", ["a", "b"], "JSON", 1⟩ rfl).1 (by decide)

end Mysql
